import Mathlib

/-
Verification of the PN532 NFC driver and Mifare/NDEF tag decoding layer.
The definitions below are a shallow embedding of the Python sources:
  NFC_PN532.py            (frame codec, passive target handling)
  nfctag/utag.py          (Mifare memory model, MAD1 directory, TLV scan)
  nfctag/uNDEF.py         (NDEF record decoder)
  nfctag/ndeftext.py      (NDEF Text record payload codec)
  nfctag/ndefuri.py       (NDEF URI record payload decode)
Byte strings are modelled as `List Nat` with every element below 256 where
it matters; fallible code returns `Except`/`Option`; Python exceptions are
explicit error constructors.
-/

namespace NFC

/-! ### Frame codec (NFC_PN532.py, PN532._write_frame / PN532._read_frame) -/

inductive FrameError
  | missingStart
  | noData
  | indexError
  | lengthChecksum
  | dataChecksum
  deriving DecidableEq, Repr

/-- Python bitwise complement of a nonnegative integer truncated to one byte:
for c >= 0 the value of (~c) & 0xFF is 255 - c % 256. -/
def bitnot8 (c : Nat) : Nat := 255 - c % 256

/-- Frame bytes produced by PN532._write_frame for a given data payload:
preamble 0x00, start code 0x00 0xFF, LEN, (~LEN + 1) & 0xFF, the data,
(~(0xFF + sum data)) & 0xFF (the checksum accumulator starts from the sum
of the first three frame bytes, which is 0xFF), and postamble 0x00. -/
def frame_bytes (data : List Nat) : List Nat :=
  0 :: 0 :: 255 :: (data.length % 256) :: ((256 - data.length % 256) % 256) ::
    (data ++ [bitnot8 (255 + data.sum), 0])

/-- PN532._write_frame: the assert admits only data of length 2..254
(the Python condition is 1 < len(data) < 255); a violated assert is
modelled as `none`. -/
def write_frame (data : List Nat) : Option (List Nat) :=
  if 1 < data.length ∧ data.length < 255 then some (frame_bytes data) else none

/-- The while loop of PN532._read_frame that swallows leading 0x00 bytes and
then demands a 0xFF byte; running past the end of the response or meeting a
byte that is neither 0x00 nor 0xFF raises the missing start code error. -/
def scan_start (response : List Nat) : Except FrameError (List Nat) :=
  match response with
  | [] => Except.error FrameError.missingStart
  | b :: rest =>
    if b = 0 then scan_start rest
    else if b = 255 then Except.ok rest
    else Except.error FrameError.missingStart

/-- PN532._read_frame applied to the bytes already read from the bus: skip
the 0x00 preamble up to 0xFF, read LEN and the length checksum, check
(LEN + LCS) & 0xFF = 0, check that the data plus data checksum region sums
to 0 mod 256, and return the LEN data bytes. An empty response raises an
IndexError at the very first subscript; a response that ends right after
0xFF raises the no data error; a response that ends at the length checksum
subscript raises an IndexError. -/
def read_frame (response : List Nat) : Except FrameError (List Nat) :=
  match response with
  | [] => Except.error FrameError.indexError
  | _ :: _ =>
    match scan_start response with
    | Except.error e => Except.error e
    | Except.ok [] => Except.error FrameError.noData
    | Except.ok [_] => Except.error FrameError.indexError
    | Except.ok (frame_len :: lcs :: rest) =>
      if (frame_len + lcs) % 256 ≠ 0 then Except.error FrameError.lengthChecksum
      else if ((rest.take (frame_len + 1)).sum) % 256 ≠ 0 then
        Except.error FrameError.dataChecksum
      else Except.ok (rest.take frame_len)

/-- Flip bit k of the byte at position p of a frame. -/
def flip_bit (frame : List Nat) (p k : Nat) : List Nat :=
  frame.set p ((frame.getD p 0) ^^^ 2 ^ k)

/-! ### MAD1 directory (nfctag/utag.py, class MAD1) -/

/-- AID entry of a MAD1 directory for a given sector index: MAD1.set_mad_data
pairs sector index k in 1..15 with the two directory bytes at offsets
2k and 2k + 1. -/
def aid_bytes (mad : List Nat) (k : Nat) : List Nat := (mad.drop (2 * k)).take 2

/-- Value of struct.unpack("H", aid) on a two byte entry: the first byte is
the low byte (little endian, the native order of the target). When the entry
does not hold exactly two bytes the unpack raises, MAD1._get_nfc_sectors
swallows the exception and the code stays 0. -/
def aid_code (mad : List Nat) (k : Nat) : Nat :=
  match aid_bytes mad k with
  | [a, b] => a + 256 * b
  | _ => 0

/-- MAD1._get_nfc_sectors: the sector indices 1..15 whose AID entry unpacks
to the NFC Forum application id 0xE103. -/
def nfc_sectors (mad : List Nat) : List Nat :=
  (List.range' 1 15).filter (fun k => aid_code mad k = 0xE103)

/-! ### Mifare memory model (nfctag/utag.py, NFCTag.get_block) -/

inductive TagError
  | indexError
  deriving DecidableEq, Repr

/-- NFCTag.block: bytes(memory[16 n : 16 n + 16]), the cached 16 byte view of
block n over the 1024 byte image. -/
def block_of (mem : List Nat) (n : Nat) : List Nat := (mem.drop (16 * n)).take 16

/-- Overwrite the byte range of the image starting at s with the bytes d
(the memoryview slice assignment blocks[n][:] = data). -/
def set_range (mem : List Nat) (s : Nat) (d : List Nat) : List Nat :=
  mem.take s ++ d ++ mem.drop (s + d.length)

/-- NFCTag.get_block: block numbers above 63 raise IndexError; otherwise the
outcome of the live device read (read_result, None for a failed read) updates
the cached range of block n only when it is truthy and exactly 16 bytes long,
and the (possibly stale) cached block bytes are returned. The function yields
the updated image together with the returned bytes. -/
def get_block (mem : List Nat) (number : Nat) (read_result : Option (List Nat)) :
    Except TagError (List Nat × List Nat) :=
  if number > 63 then Except.error TagError.indexError
  else
    let mem2 :=
      match read_result with
      | some d => if d ≠ [] ∧ d.length = 16 then set_range mem (16 * number) d else mem
      | none => mem
    Except.ok (mem2, block_of mem2 number)

/-! ### Passive target detection (NFC_PN532.py, PN532.read_passive_target) -/

inductive TargetError
  | multipleTargets
  | uidTooLong
  | indexError
  deriving DecidableEq, Repr

/-- Response handling of PN532.read_passive_target after call_function has
returned response bytes: response[0] other than 0x01 raises the multiple
cards RuntimeError, response[5] above 7 raises the long UID RuntimeError,
otherwise the slice response[6 : 6 + response[5]] is the returned UID.
Subscripts beyond the end of the response raise IndexError. -/
def read_passive_target_resp (response : List Nat) : Except TargetError (List Nat) :=
  match response[0]? with
  | none => Except.error TargetError.indexError
  | some n0 =>
    if n0 ≠ 1 then Except.error TargetError.multipleTargets
    else
      match response[5]? with
      | none => Except.error TargetError.indexError
      | some n5 =>
        if n5 > 7 then Except.error TargetError.uidTooLong
        else Except.ok ((response.drop 6).take n5)

/-! ### TLV scan (nfctag/utag.py, NFCTag.find_tlvblock, stream branch)

The stream branch reads one byte per loop iteration from an io.BytesIO.
A read at end of stream returns the empty byte string, which is not equal
to the tag byte 0x03, so the loop keeps running; the embedding makes one
unit of fuel correspond to one loop iteration, and `none` means the loop
is still running when the fuel is gone. -/

inductive TlvError
  | typeErrorEnd
  | structError
  | enderMismatch
  deriving DecidableEq, Repr

/-- One byte read from position pos of the stream contents. -/
def read1 (buf : List Nat) (pos : Nat) : List Nat := (buf.drop pos).take 1

/-- NFCTag.find_tlvblock on an io.BytesIO stream, one loop iteration per unit
of fuel. On finding the 0x03 tag byte: read the length byte (ord of an empty
read raises), for a length byte below 0xFF read that many payload bytes into
the 752 byte payload buffer, for 0xFF unpack a two byte big endian length
(struct raises when fewer than two bytes remain) and read that many payload
bytes, then read the ender byte and assert it equals 0xFE. The result pairs
the announced length with the payload bytes actually read. -/
def find_tlv_stream (buf : List Nat) : Nat → Nat → Option (Except TlvError (Nat × List Nat))
  | _, 0 => none
  | pos, fuel + 1 =>
    match read1 buf pos with
    | [] => find_tlv_stream buf (pos + 1) fuel
    | b :: _ =>
      if b ≠ 3 then find_tlv_stream buf (pos + 1) fuel
      else
        match read1 buf (pos + 1) with
        | [] => some (Except.error TlvError.typeErrorEnd)
        | dl :: _ =>
          if dl < 255 then
            let payload := (buf.drop (pos + 2)).take (min dl 752)
            match read1 buf (pos + 2 + payload.length) with
            | [254] => some (Except.ok (dl, payload))
            | _ => some (Except.error TlvError.enderMismatch)
          else
            match (buf.drop (pos + 2)).take 2 with
            | [b1, b2] =>
              let dlen := 256 * b1 + b2
              let payload := (buf.drop (pos + 4)).take (min dlen 752)
              match read1 buf (pos + 4 + payload.length) with
              | [254] => some (Except.ok (dlen, payload))
              | _ => some (Except.error TlvError.enderMismatch)
            | _ => some (Except.error TlvError.structError)

/-! ### NDEF record decoder (nfctag/uNDEF.py, NDEFRecord._decode)

Type strings are modelled as the lists of their ASCII byte values; the
Python str codecs applied to the ASCII type and language bytes are the
identity on byte values in this range. -/

inductive NdefError
  | endOfStream
  | invalidTnf
  | bufferUnderflow
  | malformedFields
  | payloadTooLarge
  | decodeStructError
  | langLenZero
  | langLenExceeds
  | indexError
  deriving DecidableEq, Repr

inductive NdefWarn
  | payloadTooShort
  | payloadTooLong
  deriving DecidableEq, Repr

/-- Decoded record value: a Text record (encoding selector, language bytes,
text bytes), a URI record (uri bytes), or the opaque placeholder "?" that
NDEFRecord._decode returns for types outside the known types table. -/
inductive NdefRec
  | text (utf16 : Bool) (lang : List Nat) (txt : List Nat)
  | uri (u : List Nat)
  | unknown
  deriving DecidableEq, Repr

/-- ASCII byte values of a string. -/
def ascii_bytes (s : String) : List Nat := s.data.map (fun c => c.toNat)

/-! #### Text record payload codec (nfctag/ndeftext.py) -/

/-- Modelled from the spec: NDEFTextRecord._encode_payload calls the base
record method _encode_struct("B", value), which is nowhere defined under the
sources; per the spec payload layout the flag is a single byte holding the
language code length in bits 5..0 and the encoding selector in bit 7, so the
missing helper is modelled as packing its value into one byte. -/
def encode_struct_B (v : Nat) : List Nat := [v % 256]

/-- NDEFTextRecord._encode_payload: flag byte len(LANG) | (UTF-16 << 7),
then the language bytes, then the text bytes (byte values of the text in
the selected encoding). -/
def text_encode_payload (lang txt : List Nat) (utf16 : Bool) : List Nat :=
  encode_struct_B (lang.length ||| (if utf16 then 128 else 0)) ++ lang ++ txt

/-- NDEFTextRecord._decode_payload: read the flag byte (an empty payload makes
_decode_struct raise), reject a zero language code length (FLAG & 0x3F), reject
a language code length that is not below the payload length, select UTF-16 when
bit 7 of the flag is set, split the language bytes octets[1 : 1 + (FLAG & 0x3F)]
from the text bytes that follow them. -/
def text_decode_payload (octets : List Nat) : Except NdefError (Bool × List Nat × List Nat) :=
  match octets with
  | [] => Except.error NdefError.decodeStructError
  | flag :: rest =>
    if flag &&& 0x3F = 0 then Except.error NdefError.langLenZero
    else if octets.length ≤ flag &&& 0x3F then Except.error NdefError.langLenExceeds
    else
      let utf16 := flag >>> 7 ≠ 0
      let lang := rest.take (flag &&& 0x3F)
      Except.ok (utf16, lang, rest.drop lang.length)

/-! #### URI record payload decode (nfctag/ndefuri.py) -/

/-- MicroUri._prefix_strings: the 36 entry table of URI scheme abbreviations. -/
def uri_heads : List String :=
  ["", "http://www.", "https://www.", "http://", "https://", "tel:",
   "mailto:", "ftp://anonymous:anonymous@", "ftp://ftp.", "ftps://",
   "sftp://", "smb://", "nfs://", "ftp://", "dav://", "news:",
   "telnet://", "imap:", "rtsp://", "urn:", "pop:", "sip:", "sips:",
   "tftp:", "btspp://", "btl2cap://", "btgoep://", "tcpobex://",
   "irdaobex://", "file://", "urn:epc:id:", "urn:epc:tag:",
   "urn:epc:pat:", "urn:epc:raw:", "urn:epc:", "urn:nfc:"]

/-- MicroUri._decode_payload: the first payload byte indexes the abbreviation
table and the remaining bytes complete the URI. An empty payload raises an
IndexError from stream.read(1)[0]; a code beyond the end of the 36 entry
table raises an IndexError from the tuple subscript, with no handler on the
path - distinct from the named NDEFdecodeError conditions. -/
def uri_decode_payload (octets : List Nat) : Except NdefError (List Nat) :=
  match octets with
  | [] => Except.error NdefError.indexError
  | code :: data =>
    if code < uri_heads.length then
      Except.ok (ascii_bytes (uri_heads.getD code ("")) ++ data)
    else Except.error NdefError.indexError

/-! #### Record decode (nfctag/uNDEF.py) -/

/-- NDEFRecord._decode_type: the per TNF type name head from the prefix tuple
("", "urn:nfc:wkt:", "", "", "urn:nfc:ext:", "unknown", "unchanged"); for
TNF 0, 5 and 6 the TYPE bytes are replaced by the empty string before the
concatenation. -/
def decode_type (tnf : Nat) (type_bytes : List Nat) : List Nat :=
  let heads := ["", "urn:nfc:wkt:", "", "", "urn:nfc:ext:", "unknown", "unchanged"]
  let tb := if tnf = 0 ∨ tnf = 5 ∨ tnf = 6 then [] else type_bytes
  ascii_bytes (heads.getD tnf ("")) ++ tb

/-- Record type string of NDEFTextRecord (its _type attribute). -/
def text_type : List Nat := ascii_bytes ("urn:nfc:wkt:T")

/-- Record type string of MicroUri (its _type attribute). -/
def uri_type : List Nat := ascii_bytes ("urn:nfc:wkt:U")

/-- Declared decode payload bounds of the known record classes: both
NDEFTextRecord and MicroUri set _decode_min_payload_length = 1 and
_decode_max_payload_length = 512. -/
def decode_min_payload_length (_t : List Nat) : Nat := 1

def decode_max_payload_length (_t : List Nat) : Nat := 512

/-- Known types table of NDEFRecord: keys urn:nfc:wkt:T and urn:nfc:wkt:U. -/
def known_types : List (List Nat) := [text_type, uri_type]

/-- Payload decoder selected by the known types table. -/
def known_payload_decode (t : List Nat) (payload : List Nat) : Except NdefError NdefRec :=
  if t = text_type then
    (text_decode_payload payload).map (fun r => NdefRec.text r.1 r.2.1 r.2.2)
  else
    (uri_decode_payload payload).map (fun u => NdefRec.uri u)

/-- Type dispatch tail of NDEFRecord._decode (the known types lookup): for a
known record type the payload length is compared against the declared bounds
of the record class and a violation is only printed (collected here as
warnings), after which the payload decoder of the class runs regardless; an
unknown type yields the "?" placeholder. -/
def dispatch (t : List Nat) (payload : List Nat) :
    Except NdefError NdefRec × List NdefWarn :=
  if t ∈ known_types then
    let w1 : List NdefWarn :=
      if payload.length < decode_min_payload_length t then [NdefWarn.payloadTooShort] else []
    let w2 : List NdefWarn :=
      if payload.length > decode_max_payload_length t then [NdefWarn.payloadTooLong] else []
    (known_payload_decode t payload, w1 ++ w2)
  else (Except.ok NdefRec.unknown, [])

/-- Length field block read by NDEFRecord._decode: struct format
">B" + ("B" when SR else "L") + ("B" when IL else ""), so TYPE_LENGTH is one
byte, PAYLOAD_LENGTH one byte or four big endian bytes, ID_LENGTH one byte
when IL is set and the constant 0 otherwise (the appended (0,)). A stream
holding fewer bytes than the format size makes struct.unpack raise, which
_decode turns into the buffer underflow error; `none` reports that case. -/
def read_length_fields (sr il : Bool) (s : List Nat) :
    Option ((Nat × Nat × Nat) × List Nat) :=
  let size := 1 + (if sr then 1 else 4) + (if il then 1 else 0)
  if s.length < size then none
  else
    let tl := s.getD 0 0
    let pl :=
      if sr then s.getD 1 0
      else (s.getD 1 0) * 16777216 + (s.getD 2 0) * 65536 + (s.getD 3 0) * 256 + s.getD 4 0
    let idl := if il then (if sr then s.getD 2 0 else s.getD 5 0) else 0
    some ((tl, pl, idl), s.drop size)

/-- Field presence asserts of NDEFRecord._decode: TNF 0, 5 or 6 demands
TYPE_LENGTH 0; TNF 0 demands ID_LENGTH 0 and PAYLOAD_LENGTH 0; TNF 1..4
demands TYPE_LENGTH above 0. -/
def field_violation (tnf tl pl idl : Nat) : Prop :=
  ((tnf = 0 ∨ tnf = 5 ∨ tnf = 6) ∧ tl ≠ 0) ∨
    (tnf = 0 ∧ (idl ≠ 0 ∨ pl ≠ 0)) ∨
    ((tnf = 1 ∨ tnf = 2 ∨ tnf = 3 ∨ tnf = 4) ∧ tl = 0)

instance (tnf tl pl idl : Nat) : Decidable (field_violation tnf tl pl idl) := by
  unfold field_violation; infer_instance

/-- MAX_PAYLOAD_SIZE of NDEFRecord. -/
def MAX_PAYLOAD_SIZE : Nat := 512

/-- NDEFRecord._decode on the remaining stream bytes: read the header octet
(end of stream terminates record iteration), split its bits, raise on TNF 7,
read the length fields, check the per TNF field asserts, check
PAYLOAD_LENGTH against MAX_PAYLOAD_SIZE, read TYPE, ID and PAYLOAD in that
order with an underflow assert on each, resolve the type string and dispatch
to the known types table. The pair carries the printed length warnings next
to the result, the tuple mirrors (record, MB, ME, CF). -/
def ndef_decode (s : List Nat) :
    Except NdefError (NdefRec × Bool × Bool × Bool) × List NdefWarn :=
  match s with
  | [] => (Except.error NdefError.endOfStream, [])
  | octet0 :: rest =>
    let MB := octet0.testBit 7
    let ME := octet0.testBit 6
    let CF := octet0.testBit 5
    let SR := octet0.testBit 4
    let IL := octet0.testBit 3
    let TNF := octet0 &&& 7
    if TNF = 7 then (Except.error NdefError.invalidTnf, [])
    else
      match read_length_fields SR IL rest with
      | none => (Except.error NdefError.bufferUnderflow, [])
      | some ((tl, pl, idl), s2) =>
        if field_violation TNF tl pl idl then (Except.error NdefError.malformedFields, [])
        else if pl > MAX_PAYLOAD_SIZE then (Except.error NdefError.payloadTooLarge, [])
        else
          let TYPE := s2.take tl
          let ID := (s2.drop tl).take idl
          let PAYLOAD := ((s2.drop tl).drop idl).take pl
          if TYPE.length ≠ tl ∨ ID.length ≠ idl ∨ PAYLOAD.length ≠ pl then
            (Except.error NdefError.bufferUnderflow, [])
          else
            let rt := decode_type TNF TYPE
            let out := dispatch rt PAYLOAD
            (out.1.map (fun rec => (rec, MB, ME, CF)), out.2)

/-! ### Test vectors -/

/-- A 32 byte MAD1 directory whose AID entry for sector 3 (offsets 6 and 7)
holds the byte pair 03 E1, the little endian layout of the value 0xE103. -/
def mad_vec_03_e1 : List Nat :=
  [0x14, 0x01, 0, 0, 0, 0, 0x03, 0xE1, 0, 0, 0, 0, 0, 0, 0, 0,
   0, 0, 0, 0, 0, 0, 0, 0, 0, 0, 0, 0, 0, 0, 0, 0]

/-- A 32 byte MAD1 directory whose AID entry for sector 3 holds the byte
pair E1 03, byte E1 first. -/
def mad_vec_e1_03 : List Nat :=
  [0x14, 0x01, 0, 0, 0, 0, 0xE1, 0x03, 0, 0, 0, 0, 0, 0, 0, 0,
   0, 0, 0, 0, 0, 0, 0, 0, 0, 0, 0, 0, 0, 0, 0, 0]

end NFC

namespace NFC

/-! ## Theorems -/

/-! ### C1: MAD1 NFC sector detection -/

/-- C1 counterexample: in the 32 byte directory whose AID entry for sector 3
holds the byte pair E1 03 (byte E1 first, then 03), the entry unpacks little
endian to 0x03E1, not 0xE103, so sector 3 is NOT in the computed NFC sector
set - against the claim that this byte order marks sector 3 as an NFC
sector. -/
theorem mad1_e1_03_not_nfc_counterexample :
    mad_vec_e1_03.length = 32 ∧ aid_bytes mad_vec_e1_03 3 = [0xE1, 0x03] ∧
      aid_code mad_vec_e1_03 3 = 0x03E1 ∧ 3 ∉ nfc_sectors mad_vec_e1_03 := by
  decide

/-- C1 (amended): for a 32 byte MAD1 directory, sector 3 is in the computed
NFC sector set when its AID entry holds the byte pair 03 E1 (the little
endian layout of the NFC Forum value 0xE103), and every sector whose AID
entry does not unpack to 0xE103 is excluded from the set. -/
theorem mad1_nfc_sectors_amended (mad : List Nat) (_hlen : mad.length = 32) :
    (aid_bytes mad 3 = [0x03, 0xE1] → 3 ∈ nfc_sectors mad) ∧
      (∀ k : Nat, aid_code mad k ≠ 0xE103 → k ∉ nfc_sectors mad) := by
  constructor
  · intro h
    have hc : aid_code mad 3 = 0xE103 := by
      unfold aid_code
      rw [h]
    exact List.mem_filter.mpr ⟨by decide, by simp [hc]⟩
  · intro k hk hmem
    have hf := List.mem_filter.mp hmem
    exact hk (by simpa using hf.2)

/-- C1 witness: the amended theorem applied to the concrete directory with
sector 3 entry 03 E1. -/
theorem mad1_nfc_sectors_amended_witness :
    3 ∈ nfc_sectors mad_vec_03_e1 ∧ 5 ∉ nfc_sectors mad_vec_03_e1 :=
  ⟨(mad1_nfc_sectors_amended mad_vec_03_e1 (by decide)).1 (by decide),
   (mad1_nfc_sectors_amended mad_vec_03_e1 (by decide)).2 5 (by decide)⟩

/-! ### C2: frame round trip -/

/-- Preamble scan of an encoded frame: the two 0x00 bytes are swallowed and
the 0xFF start byte is consumed. -/
theorem scan_start_frame_bytes (data : List Nat) :
    scan_start (frame_bytes data) =
      Except.ok ((data.length % 256) :: ((256 - data.length % 256) % 256) ::
        (data ++ [bitnot8 (255 + data.sum), 0])) := by
  simp [frame_bytes, scan_start]

/-- The data checksum byte completes the data region to 0 mod 256. -/
theorem checksum_completes (s : Nat) : (s + bitnot8 (255 + s)) % 256 = 0 := by
  unfold bitnot8
  have hm : (255 + s) % 256 ≤ 255 := Nat.le_of_lt_succ (Nat.mod_lt _ (by decide))
  have hdm := Nat.div_add_mod (255 + s) 256
  have heq : s + (255 - (255 + s) % 256) = 256 * ((255 + s) / 256) := by omega
  rw [heq]
  exact Nat.mul_mod_right 256 _

/-- Decoding an encoded frame recovers the data: both checksum checks pass
and the returned slice is exactly the original data. -/
theorem read_frame_frame_bytes (data : List Nat) (h2 : 2 ≤ data.length)
    (h254 : data.length ≤ 254) :
    read_frame (frame_bytes data) = Except.ok data := by
  have hm1 : data.length % 256 = data.length := Nat.mod_eq_of_lt (by omega)
  have hsum : (data.length % 256 + (256 - data.length % 256) % 256) % 256 = 0 := by
    rw [hm1]
    have h2a : (256 - data.length) % 256 = 256 - data.length :=
      Nat.mod_eq_of_lt (by omega)
    rw [h2a]
    have h : data.length + (256 - data.length) = 256 := by omega
    rw [h]
  have ht1 : (data ++ [bitnot8 (255 + data.sum), 0]).take (data.length % 256 + 1) =
      data ++ [bitnot8 (255 + data.sum)] := by
    rw [hm1, List.take_append_eq_append_take, List.take_of_length_le (by omega)]
    simp
  have ht2 : (data ++ [bitnot8 (255 + data.sum), 0]).take (data.length % 256) = data := by
    rw [hm1, List.take_append_eq_append_take, List.take_of_length_le (by omega)]
    simp
  have hck : ((data ++ [bitnot8 (255 + data.sum)]).sum) % 256 = 0 := by
    rw [List.sum_append]
    simpa using checksum_completes data.sum
  have hfb : frame_bytes data = 0 :: 0 :: 255 :: (data.length % 256) ::
      ((256 - data.length % 256) % 256) :: (data ++ [bitnot8 (255 + data.sum), 0]) := rfl
  rw [hfb]
  simp only [read_frame, scan_start, reduceIte]
  rw [if_neg (by decide : ¬ (255 : Nat) = 0)]
  dsimp only
  rw [if_neg (by simp [hsum]), if_neg (by simp [ht1, checksum_completes]), ht2]

/-- C2 counterexample: the one byte payload AB is inside the claimed length
range 1..254, but PN532._write_frame rejects it (the assert demands strictly
more than one byte), so encoding does not succeed and no round trip exists
at length 1. -/
theorem frame_roundtrip_length_one_counterexample :
    write_frame [0xAB] = none ∧ ([0xAB] : List Nat).length = 1 := by
  decide

/-- C2 (amended): every payload of length 2..254 is accepted by
PN532._write_frame, and decoding the produced frame returns exactly the
payload. -/
theorem frame_roundtrip_amended (data : List Nat) (h2 : 2 ≤ data.length)
    (h254 : data.length ≤ 254) :
    ∃ frame, write_frame data = some frame ∧ frame.length = data.length + 7 ∧
      read_frame frame = Except.ok data := by
  refine ⟨frame_bytes data, ?_, ?_, read_frame_frame_bytes data h2 h254⟩
  · unfold write_frame
    rw [if_pos ⟨by omega, by omega⟩]
  · simp [frame_bytes]

/-- C2 witness: the amended round trip at the concrete payload D4 02. -/
theorem frame_roundtrip_amended_witness :
    ∃ frame, write_frame [0xD4, 0x02] = some frame ∧ frame.length = 2 + 7 ∧
      read_frame frame = Except.ok [0xD4, 0x02] :=
  frame_roundtrip_amended [0xD4, 0x02] (by decide) (by decide)

/-! ### C4: TLV scan on a stream with no tag byte -/

/-- On stream contents holding no 0x03 byte, every iteration of the
find_tlvblock loop reads a byte that is not the tag byte (or the empty end
of stream read) and continues, so no amount of fuel produces a result. -/
theorem find_tlv_stream_no_tag (buf : List Nat) (hb : ∀ b ∈ buf, b ≠ 3) :
    ∀ fuel pos, find_tlv_stream buf pos fuel = none := by
  intro fuel
  induction fuel with
  | zero => intro pos; rfl
  | succ k ih =>
    intro pos
    rw [find_tlv_stream]
    cases hrd : read1 buf pos with
    | nil => simp [hrd, ih]
    | cons b t =>
      have hbmem : b ∈ buf := by
        have hm : b ∈ read1 buf pos := by rw [hrd]; exact List.mem_cons_self b t
        exact List.mem_of_mem_drop (List.mem_of_mem_take hm)
      simp [hrd, hb b hbmem, ih]

/-- C4: scanning the stream contents 00 00 00 (no 0x03 tag byte anywhere)
never terminates - for every fuel bound the find_tlvblock loop is still
running, so the scan neither returns a payload nor fails with an error,
against the claimed fatal error for a missing tag byte. -/
theorem find_tlv_stream_no_tag_never_returns (fuel : Nat) :
    find_tlv_stream [0, 0, 0] 0 fuel = none :=
  find_tlv_stream_no_tag [0, 0, 0] (by decide) fuel 0

/-! ### C6: passive target response checks -/

/-- C6: a passive target response reporting a target count other than one
(in particular two or more) raises the multiple cards error and no UID is
returned; a UID length field above 7 raises the long UID error; otherwise
the returned UID is the slice of exactly the reported length, which is at
most 7, provided the response carries that many UID bytes. -/
theorem read_passive_target_checks (response : List Nat) :
    (∀ n0, response[0]? = some n0 → 2 ≤ n0 →
      read_passive_target_resp response = Except.error TargetError.multipleTargets) ∧
    (∀ n5, response[0]? = some 1 → response[5]? = some n5 → 7 < n5 →
      read_passive_target_resp response = Except.error TargetError.uidTooLong) ∧
    (∀ n5, response[0]? = some 1 → response[5]? = some n5 → n5 ≤ 7 →
      6 + n5 ≤ response.length →
      read_passive_target_resp response = Except.ok ((response.drop 6).take n5) ∧
        ((response.drop 6).take n5).length = n5 ∧ n5 ≤ 7) := by
  refine ⟨?_, ?_, ?_⟩
  · intro n0 h0 h2
    unfold read_passive_target_resp
    rw [h0]
    simp only [reduceIte]
    rw [if_pos (by omega)]
  · intro n5 h0 h5 h7
    simp [read_passive_target_resp, h0, h5, h7]
  · intro n5 h0 h5 h7 hlen
    refine ⟨?_, ?_, h7⟩
    · simp [read_passive_target_resp, h0, h5, show ¬(n5 > 7) from by omega]
    · rw [List.length_take, List.length_drop]
      omega

/-- C6 witness: the three checks at concrete responses - two targets, a
UID length of 8, and a well formed single target with a 4 byte UID. -/
theorem read_passive_target_checks_witness :
    read_passive_target_resp [2, 0, 0, 0, 0, 4, 9, 9, 9, 9] =
      Except.error TargetError.multipleTargets ∧
    read_passive_target_resp [1, 0, 0, 0, 0, 8, 1, 2, 3, 4, 5, 6, 7, 8] =
      Except.error TargetError.uidTooLong ∧
    read_passive_target_resp [1, 0, 0, 0, 0, 4, 9, 8, 7, 6] =
      Except.ok (([1, 0, 0, 0, 0, 4, 9, 8, 7, 6].drop 6).take 4) :=
  ⟨(read_passive_target_checks _).1 2 rfl (by omega),
   (read_passive_target_checks _).2.1 8 rfl rfl (by omega),
   ((read_passive_target_checks _).2.2 4 rfl rfl (by omega) (by simp)).1⟩

/-! ### C7: block cache update discipline -/

theorem set_range_length (mem d : List Nat) (s : Nat) (hs : s + d.length ≤ mem.length) :
    (set_range mem s d).length = mem.length := by
  unfold set_range
  simp only [List.length_append, List.length_take, List.length_drop]
  omega

theorem getElem?_set_range_inside (mem d : List Nat) (s j : Nat)
    (hs : s + d.length ≤ mem.length) (h1 : s ≤ j) (h2 : j < s + d.length) :
    (set_range mem s d)[j]? = d[j - s]? := by
  unfold set_range
  have hA : (mem.take s).length = s := by
    rw [List.length_take]
    omega
  rw [List.getElem?_append_left (by rw [List.length_append, hA]; omega),
    List.getElem?_append_right (by omega), hA]

theorem getElem?_set_range_outside (mem d : List Nat) (s j : Nat)
    (hs : s + d.length ≤ mem.length) (h : j < s ∨ s + d.length ≤ j) :
    (set_range mem s d)[j]? = mem[j]? := by
  unfold set_range
  have hA : (mem.take s).length = s := by
    rw [List.length_take]
    omega
  rcases h with hlt | hge
  · rw [List.getElem?_append_left (by rw [List.length_append, hA]; omega),
      List.getElem?_append_left (by omega),
      List.getElem?_take_of_lt (by omega)]
  · rw [List.getElem?_append_right (by rw [List.length_append, hA]; omega),
      List.length_append, hA, List.getElem?_drop]
    congr 1
    omega

theorem getElem?_block_of (mem : List Nat) (n i : Nat) :
    (block_of mem n)[i]? = if i < 16 then mem[16 * n + i]? else none := by
  unfold block_of
  by_cases h : i < 16
  · rw [if_pos h, List.getElem?_take_of_lt h, List.getElem?_drop]
  · rw [if_neg h, List.getElem?_take_eq_none (by omega)]

theorem block_of_set_range_self (mem d : List Nat) (n : Nat) (hd : d.length = 16)
    (hn : 16 * n + 16 ≤ mem.length) :
    block_of (set_range mem (16 * n) d) n = d := by
  apply List.ext_getElem?
  intro i
  rw [getElem?_block_of]
  by_cases h : i < 16
  · rw [if_pos h, getElem?_set_range_inside mem d (16 * n) (16 * n + i) (by omega)
      (by omega) (by omega)]
    congr 1
    omega
  · rw [if_neg h]
    exact (List.getElem?_eq_none (by omega)).symm

theorem block_of_set_range_other (mem d : List Nat) (n m : Nat) (hd : d.length = 16)
    (hn : 16 * n + 16 ≤ mem.length) (hmn : m ≠ n) :
    block_of (set_range mem (16 * n) d) m = block_of mem m := by
  apply List.ext_getElem?
  intro i
  rw [getElem?_block_of, getElem?_block_of]
  by_cases h : i < 16
  · rw [if_pos h, if_pos h,
      getElem?_set_range_outside mem d (16 * n) (16 * m + i) (by omega) (by omega)]
  · rw [if_neg h, if_neg h]

/-- C7: for a block index n in 0..63, a failed live read (None) or a read of
other than exactly 16 bytes leaves the whole 1024 byte image unchanged and
returns the cached block n bytes; a read of exactly 16 bytes updates only the
16 byte range of block n (the updated image keeps its length, block n now
holds the read bytes, and every other block is byte for byte unchanged). -/
theorem get_block_cache_update (mem : List Nat) (n : Nat) (r : Option (List Nat))
    (hmem : mem.length = 1024) (hn : n ≤ 63) :
    ((r = none ∨ ∃ d, r = some d ∧ d.length ≠ 16) →
      get_block mem n r = Except.ok (mem, block_of mem n)) ∧
    (∀ d, r = some d → d.length = 16 →
      get_block mem n r = Except.ok (set_range mem (16 * n) d,
        block_of (set_range mem (16 * n) d) n) ∧
      block_of (set_range mem (16 * n) d) n = d ∧
      (set_range mem (16 * n) d).length = 1024 ∧
      ∀ m, m ≠ n → block_of (set_range mem (16 * n) d) m = block_of mem m) := by
  constructor
  · intro h
    unfold get_block
    rw [if_neg (by omega)]
    rcases h with h | ⟨d, hd, hlen⟩
    · rw [h]
    · rw [hd]
      have hc : ¬(d ≠ [] ∧ d.length = 16) := by
        intro hand
        exact hlen hand.2
      simp only [hc, reduceIte, if_neg hc]
  · intro d hd h16
    have hne : d ≠ [] := by
      intro h
      rw [h] at h16
      simp at h16
    have hbound : 16 * n + 16 ≤ mem.length := by omega
    refine ⟨?_, block_of_set_range_self mem d n h16 hbound,
      (by rw [set_range_length mem d (16 * n) (by omega)]; exact hmem),
      fun m hm => block_of_set_range_other mem d n m h16 hbound hm⟩
    unfold get_block
    rw [if_neg (by omega), hd]
    simp only [ne_eq, hne, not_false_eq_true, h16, and_self, reduceIte, if_pos]

/-- C7 witness: a failed read on a zero image returns the cached block, and
a successful 16 byte read lands in block 2 exactly. -/
theorem get_block_cache_update_witness :
    get_block (List.replicate 1024 0) 2 none =
      Except.ok (List.replicate 1024 0, block_of (List.replicate 1024 0) 2) ∧
    block_of (set_range (List.replicate 1024 0) (16 * 2) (List.replicate 16 7)) 2 =
      List.replicate 16 7 :=
  ⟨(get_block_cache_update (List.replicate 1024 0) 2 none
      (by rw [List.length_replicate]) (by omega)).1 (Or.inl rfl),
   ((get_block_cache_update (List.replicate 1024 0) 2 (some (List.replicate 16 7))
      (by rw [List.length_replicate]) (by omega)).2 (List.replicate 16 7) rfl
      (by rw [List.length_replicate])).2.1⟩

/-! ### C10: URI record code handling -/

/-- C10: decoding a URI payload whose code byte exceeds 35 hits the tuple
subscript out of range - the uncaught IndexError constructor, distinct from
every named NDEFdecodeError condition; for a code of at most 35 the decoder
returns the table entry for the code (code 0 giving the empty head, so no
abbreviation) followed by the remaining payload bytes. -/
theorem uri_decode_code_range (code : Nat) (data : List Nat) :
    (35 < code → uri_decode_payload (code :: data) = Except.error NdefError.indexError) ∧
    (code ≤ 35 → uri_decode_payload (code :: data) =
      Except.ok (ascii_bytes (uri_heads.getD code ("")) ++ data)) ∧
    ascii_bytes (uri_heads.getD 0 ("")) = [] ∧ uri_heads.length = 36 := by
  have hlen : uri_heads.length = 36 := rfl
  refine ⟨?_, ?_, rfl, hlen⟩
  · intro h
    simp only [uri_decode_payload]
    rw [if_neg (by rw [hlen]; omega)]
  · intro h
    simp only [uri_decode_payload]
    rw [if_pos (by rw [hlen]; omega)]

/-- C10 witness: code 36 raises the IndexError; code 1 prepends the table
entry http://www. to the remaining bytes. -/
theorem uri_decode_code_range_witness :
    uri_decode_payload (36 :: [97]) = Except.error NdefError.indexError ∧
    uri_decode_payload (1 :: ascii_bytes ("example.com")) =
      Except.ok (ascii_bytes (uri_heads.getD 1 ("")) ++ ascii_bytes ("example.com")) :=
  ⟨(uri_decode_code_range 36 [97]).1 (by omega),
   (uri_decode_code_range 1 (ascii_bytes ("example.com"))).2.1 (by omega)⟩

/-! ### C3: text record round trip and flag bit -/

/-- C3: encoding a text record with text hello, language en and UTF-8 and
decoding the produced payload yields the identical triple (encoding
selector, language bytes, text bytes); and for every admitted language
(1..63 code bytes) and any text, bit 7 of the produced flag byte is 0 under
UTF-8 and 1 under UTF-16. -/
theorem text_record_roundtrip :
    text_decode_payload
        (text_encode_payload (ascii_bytes ("en")) (ascii_bytes ("hello")) false) =
      Except.ok (false, ascii_bytes ("en"), ascii_bytes ("hello")) ∧
    (∀ lang txt : List Nat, 1 ≤ lang.length → lang.length ≤ 63 →
      ((text_encode_payload lang txt false).headD 0) >>> 7 = 0 ∧
      ((text_encode_payload lang txt true).headD 0) >>> 7 = 1) := by
  constructor
  · rfl
  · intro lang txt h1 h63
    have h256 : (2 : Nat) ^ 8 = 256 := by norm_num
    constructor
    · have hh : (text_encode_payload lang txt false).headD 0 = lang.length % 256 := by
        simp [text_encode_payload, encode_struct_B]
      rw [hh, Nat.mod_eq_of_lt (by omega), Nat.shiftRight_eq_div_pow]
      have h27 : (2 : Nat) ^ 7 = 128 := by norm_num
      rw [h27]
      omega
    · have hor : lang.length ||| 128 < 256 := by
        have := Nat.or_lt_two_pow (x := lang.length) (y := 128) (n := 8)
          (by omega) (by omega)
        omega
      have hh : (text_encode_payload lang txt true).headD 0 = lang.length ||| 128 := by
        simp [text_encode_payload, encode_struct_B]
        exact hor
      have htb : (lang.length ||| 128).testBit 7 = true := by
        rw [Nat.testBit_or]
        rw [Bool.or_eq_true]
        exact Or.inr (by decide)
      rw [Nat.testBit_to_div_mod] at htb
      simp only [decide_eq_true_eq] at htb
      rw [hh, Nat.shiftRight_eq_div_pow]
      have h27 : (2 : Nat) ^ 7 = 128 := by norm_num
      rw [h27] at htb ⊢
      omega

/-- C3 witness: the general flag bit statement applied at the concrete
record (text hello, language en). -/
theorem text_record_roundtrip_witness :
    ((text_encode_payload (ascii_bytes ("en")) (ascii_bytes ("hello")) false).headD 0) >>> 7
        = 0 ∧
    ((text_encode_payload (ascii_bytes ("en")) (ascii_bytes ("hello")) true).headD 0) >>> 7
        = 1 :=
  text_record_roundtrip.2 (ascii_bytes ("en")) (ascii_bytes ("hello"))
    (by decide) (by decide)

/-! ### C5: NDEF record header checks -/

/-- Every error the type dispatch stage can produce comes from the payload
decoders of the known record classes, never from the header checks. -/
theorem dispatch_error_kinds (t p : List Nat) (e : NdefError)
    (h : (dispatch t p).1 = Except.error e) :
    e = NdefError.decodeStructError ∨ e = NdefError.langLenZero ∨
      e = NdefError.langLenExceeds ∨ e = NdefError.indexError := by
  unfold dispatch at h
  by_cases hk : t ∈ known_types
  · rw [if_pos hk] at h
    dsimp only at h
    unfold known_payload_decode at h
    by_cases ht : t = text_type
    · rw [if_pos ht] at h
      unfold text_decode_payload at h
      rcases p with _ | ⟨flag, rest⟩
      · simp [Except.map] at h
        tauto
      · dsimp only at h
        split at h
        · simp [Except.map] at h
          tauto
        · split at h
          · simp [Except.map] at h
            tauto
          · simp [Except.map] at h
    · rw [if_neg ht] at h
      unfold uri_decode_payload at h
      rcases p with _ | ⟨code, rest⟩
      · simp [Except.map] at h
        tauto
      · dsimp only at h
        split at h
        · simp [Except.map] at h
        · simp [Except.map] at h
          tauto
  · rw [if_neg hk] at h
    simp at h

/-- C5: record header decoding raises the invalid TNF error for every header
octet with TNF 7; for TNF below 7, once the length fields are read, a
violated field invariant (TNF in 0, 5, 6 with TYPE_LENGTH nonzero; TNF 0
with ID_LENGTH or PAYLOAD_LENGTH nonzero; TNF 1..4 with TYPE_LENGTH zero)
raises the malformed fields error; with the invariants intact a
PAYLOAD_LENGTH above 512 raises the payload too large error; and a header
satisfying all the invariants with PAYLOAD_LENGTH at most 512 raises none
of those three errors. -/
theorem ndef_header_invariant_errors (octet0 : Nat) (rest : List Nat) :
    (octet0 &&& 7 = 7 →
      (ndef_decode (octet0 :: rest)).1 = Except.error NdefError.invalidTnf) ∧
    (∀ tl pl idl s2,
      read_length_fields (octet0.testBit 4) (octet0.testBit 3) rest =
        some ((tl, pl, idl), s2) →
      octet0 &&& 7 ≠ 7 →
      ((field_violation (octet0 &&& 7) tl pl idl →
        (ndef_decode (octet0 :: rest)).1 = Except.error NdefError.malformedFields) ∧
      (¬field_violation (octet0 &&& 7) tl pl idl → pl > MAX_PAYLOAD_SIZE →
        (ndef_decode (octet0 :: rest)).1 = Except.error NdefError.payloadTooLarge) ∧
      (¬field_violation (octet0 &&& 7) tl pl idl → pl ≤ MAX_PAYLOAD_SIZE →
        (ndef_decode (octet0 :: rest)).1 ≠ Except.error NdefError.invalidTnf ∧
        (ndef_decode (octet0 :: rest)).1 ≠ Except.error NdefError.malformedFields ∧
        (ndef_decode (octet0 :: rest)).1 ≠ Except.error NdefError.payloadTooLarge))) := by
  constructor
  · intro h7
    simp only [ndef_decode]
    rw [if_pos h7]
  · intro tl pl idl s2 hf h7
    refine ⟨?_, ?_, ?_⟩
    · intro hv
      simp only [ndef_decode]
      rw [if_neg h7, hf]
      dsimp only
      rw [if_pos hv]
    · intro hv hpl
      simp only [ndef_decode]
      rw [if_neg h7, hf]
      dsimp only
      rw [if_neg hv, if_pos hpl]
    · intro hv hpl
      simp only [ndef_decode]
      rw [if_neg h7, hf]
      dsimp only
      rw [if_neg hv, if_neg (by omega)]
      by_cases hu : (s2.take tl).length ≠ tl ∨ ((s2.drop tl).take idl).length ≠ idl ∨
          (((s2.drop tl).drop idl).take pl).length ≠ pl
      · rw [if_pos hu]
        refine ⟨by simp, by simp, by simp⟩
      · rw [if_neg hu]
        rcases hdp : (dispatch (decode_type (octet0 &&& 7) (s2.take tl))
            (((s2.drop tl).drop idl).take pl)).1 with e | v
        · have hkinds := dispatch_error_kinds _ _ e hdp
          rcases hkinds with h | h | h | h <;> subst h <;>
            refine ⟨by simp [Except.map], by simp [Except.map], by simp [Except.map]⟩
        · refine ⟨by simp [Except.map], by simp [Except.map], by simp [Except.map]⟩

/-- C5 witness: the invariant checks at four concrete streams - TNF 7;
TNF 0 with nonzero PAYLOAD_LENGTH; TNF 1 (short record) with
PAYLOAD_LENGTH 600 exceeding the cap; and a well formed TNF 1 text record
header. -/
theorem ndef_header_invariant_errors_witness :
    (ndef_decode [0x17]).1 = Except.error NdefError.invalidTnf ∧
    (ndef_decode [0x10, 0, 5]).1 = Except.error NdefError.malformedFields ∧
    (ndef_decode (0x01 :: [1, 0, 0, 2, 88])).1 = Except.error NdefError.payloadTooLarge ∧
    (ndef_decode [0x11, 1, 0, 0x54]).1 ≠ Except.error NdefError.malformedFields :=
  ⟨(ndef_header_invariant_errors 0x17 []).1 (by decide),
   ((ndef_header_invariant_errors 0x10 [0, 5]).2 0 5 0 []
      (by decide) (by decide)).1 (by decide),
   (((ndef_header_invariant_errors 0x01 [1, 0, 0, 2, 88]).2 1 600 0 []
      (by decide) (by decide)).2.1 (by decide) (by decide)),
   ((((ndef_header_invariant_errors 0x11 [1, 0, 0x54]).2 1 0 0 [0x54]
      (by decide) (by decide)).2.2 (by decide) (by decide)).2.1)⟩

/-! ### C8: known type length violations only warn -/

/-- C8: in the type dispatch stage of NDEFRecord._decode, a record whose
resolved type string is one of the known types and whose payload length
falls outside the declared bounds of that record class gets the violation
logged as a warning, and the result is exactly what the payload decoder of
the class returns - the length check aborts nothing. -/
theorem known_type_length_violation_warns (t p : List Nat)
    (hk : t ∈ known_types)
    (hv : p.length < decode_min_payload_length t ∨ decode_max_payload_length t < p.length) :
    (dispatch t p).2 ≠ [] ∧ (dispatch t p).1 = known_payload_decode t p := by
  unfold dispatch
  rw [if_pos hk]
  refine ⟨?_, rfl⟩
  rcases hv with h | h
  · rw [if_pos h]
    simp
  · rw [if_pos (by omega : p.length > decode_max_payload_length t)]
    simp

/-- C8 witness: the empty payload under the Text type (length 0, below the
declared minimum of 1) warns and still hands the payload to the Text
decoder. -/
theorem known_type_length_violation_warns_witness :
    (dispatch text_type []).2 ≠ [] ∧
    (dispatch text_type []).1 = known_payload_decode text_type [] :=
  known_type_length_violation_warns text_type [] (by decide) (Or.inl (by decide))

/-! ### C9: single bit flip sensitivity of the frame codec -/

/-- Flipping a bit changes a byte. -/
theorem xor_pow_ne (d k : Nat) : d ^^^ 2 ^ k ≠ d := by
  intro h
  have hb := congrArg (fun x => Nat.testBit x k) h
  simp only [Nat.testBit_xor, Nat.testBit_two_pow_self] at hb
  revert hb
  cases d.testBit k <;> decide

/-- Flipping one of the low eight bits keeps a byte below 256. -/
theorem xor_pow_lt (d k : Nat) (hd : d < 256) (hk : k < 8) : d ^^^ 2 ^ k < 256 := by
  have h2k : 2 ^ k < 256 := by
    calc 2 ^ k ≤ 2 ^ 7 := Nat.pow_le_pow_right (by omega) (by omega)
    _ < 256 := by norm_num
  have h256 : (256 : Nat) = 2 ^ 8 := by norm_num
  rw [h256] at hd h2k ⊢
  exact Nat.xor_lt_two_pow hd h2k

/-- Evaluation of PN532._read_frame on any response of the frame shape:
two preamble zero bytes, the 0xFF start byte, then the LEN, checksum and
body positions. -/
theorem read_frame_shape (x y : Nat) (body : List Nat) :
    read_frame (0 :: 0 :: 255 :: x :: y :: body) =
      (if (x + y) % 256 ≠ 0 then Except.error FrameError.lengthChecksum
       else if ((body.take (x + 1)).sum) % 256 ≠ 0 then Except.error FrameError.dataChecksum
       else Except.ok (body.take x)) := by
  simp only [read_frame, scan_start, reduceIte]
  rw [if_neg (by decide : ¬ (255 : Nat) = 0)]

/-- Replacing one list element trades its old value for the new one in the
sum. -/
theorem sum_set_getD (l : List Nat) (i x : Nat) (h : i < l.length) :
    (l.set i x).sum + l.getD i 0 = l.sum + x := by
  induction l generalizing i with
  | nil => simp at h
  | cons a t ih =>
    cases i with
    | zero => simp [List.sum_cons]; omega
    | succ j =>
      have hj : j < t.length := by simpa using h
      have := ih j hj
      simp only [List.set_cons_succ, List.sum_cons, List.getD_cons_succ]
      omega

/-- Setting or reading position i + 5 of a five byte header plus body works
on position i of the body. -/
theorem set_cons5 (c0 c1 c2 c3 c4 : Nat) (l : List Nat) (i x : Nat) :
    (c0 :: c1 :: c2 :: c3 :: c4 :: l).set (i + 5) x =
      c0 :: c1 :: c2 :: c3 :: c4 :: l.set i x := rfl

theorem getD_cons5 (c0 c1 c2 c3 c4 : Nat) (l : List Nat) (i : Nat) :
    (c0 :: c1 :: c2 :: c3 :: c4 :: l).getD (i + 5) 0 = l.getD i 0 := rfl

/-- Bytes read from the data region are below 256. -/
theorem getD_lt_256 (data : List Nat) (i : Nat) (hb : ∀ b ∈ data, b < 256)
    (h : i < data.length) : data.getD i 0 < 256 := by
  rw [List.getD_eq_getElem data 0 h]
  exact hb _ (List.getElem_mem h)

/-- The data checksum byte is below 256. -/
theorem bitnot8_lt (c : Nat) : bitnot8 c < 256 := by
  unfold bitnot8
  omega

/-- C9: for every payload in the encoder's accepted range (2..254 bytes of
byte values), flipping any single bit of the encoded frame's LEN byte
(position 3), length checksum byte (position 4), data region (positions
5 .. len + 4) or data checksum byte (position len + 5) makes decoding fail
with the length checksum or data checksum error instead of returning
data. -/
theorem frame_flip_detected (data : List Nat) (p k : Nat)
    (h2 : 2 ≤ data.length) (h254 : data.length ≤ 254)
    (hb : ∀ b ∈ data, b < 256) (hk : k < 8)
    (hp3 : 3 ≤ p) (hp5 : p ≤ data.length + 5) :
    ∃ e, read_frame (flip_bit (frame_bytes data) p k) = Except.error e := by
  have hm1 : data.length % 256 = data.length := Nat.mod_eq_of_lt (by omega)
  have hm2 : (256 - data.length % 256) % 256 = 256 - data.length := by
    rw [hm1]
    exact Nat.mod_eq_of_lt (by omega)
  have hfb : frame_bytes data = 0 :: 0 :: 255 :: data.length :: (256 - data.length) ::
      (data ++ [bitnot8 (255 + data.sum), 0]) := by
    unfold frame_bytes
    rw [hm2, hm1]
  rw [hfb]
  by_cases hp4 : p < 5
  · interval_cases p
    · -- LEN byte
      have hset : flip_bit (0 :: 0 :: 255 :: data.length :: (256 - data.length) ::
          (data ++ [bitnot8 (255 + data.sum), 0])) 3 k =
          0 :: 0 :: 255 :: (data.length ^^^ 2 ^ k) :: (256 - data.length) ::
          (data ++ [bitnot8 (255 + data.sum), 0]) := by
        simp [flip_bit]
      rw [hset, read_frame_shape]
      have hx1 := xor_pow_ne data.length k
      have hx2 := xor_pow_lt data.length k (by omega) hk
      exact ⟨FrameError.lengthChecksum, by rw [if_pos (by omega)]⟩
    · -- length checksum byte
      have hset : flip_bit (0 :: 0 :: 255 :: data.length :: (256 - data.length) ::
          (data ++ [bitnot8 (255 + data.sum), 0])) 4 k =
          0 :: 0 :: 255 :: data.length :: ((256 - data.length) ^^^ 2 ^ k) ::
          (data ++ [bitnot8 (255 + data.sum), 0]) := by
        simp [flip_bit]
      rw [hset, read_frame_shape]
      have hx1 := xor_pow_ne (256 - data.length) k
      have hx2 := xor_pow_lt (256 - data.length) k (by omega) hk
      exact ⟨FrameError.lengthChecksum, by rw [if_pos (by omega)]⟩
  · obtain ⟨i, rfl⟩ : ∃ i, p = i + 5 := ⟨p - 5, by omega⟩
    have hi : i ≤ data.length := by omega
    rw [show flip_bit (0 :: 0 :: 255 :: data.length :: (256 - data.length) ::
        (data ++ [bitnot8 (255 + data.sum), 0])) (i + 5) k =
        0 :: 0 :: 255 :: data.length :: (256 - data.length) ::
        ((data ++ [bitnot8 (255 + data.sum), 0]).set i
          ((data ++ [bitnot8 (255 + data.sum), 0]).getD i 0 ^^^ 2 ^ k))
      from by unfold flip_bit; rw [getD_cons5, set_cons5], read_frame_shape]
    rw [if_neg (by omega)]
    rcases Nat.lt_or_ge i data.length with hilt | hige
    · -- data region
      have hgd : (data ++ [bitnot8 (255 + data.sum), 0]).getD i 0 = data.getD i 0 :=
        List.getD_append _ _ _ _ hilt
      have hst : (data ++ [bitnot8 (255 + data.sum), 0]).set i (data.getD i 0 ^^^ 2 ^ k) =
          data.set i (data.getD i 0 ^^^ 2 ^ k) ++ [bitnot8 (255 + data.sum), 0] :=
        List.set_append_left _ _ hilt
      rw [hgd, hst]
      have htk : (data.set i (data.getD i 0 ^^^ 2 ^ k) ++
          [bitnot8 (255 + data.sum), 0]).take (data.length + 1) =
          data.set i (data.getD i 0 ^^^ 2 ^ k) ++ [bitnot8 (255 + data.sum)] := by
        rw [List.take_append_eq_append_take,
          List.take_of_length_le (by rw [List.length_set]; omega), List.length_set]
        simp
      rw [htk]
      have hsum := sum_set_getD data i (data.getD i 0 ^^^ 2 ^ k) hilt
      have hdi : data.getD i 0 < 256 := getD_lt_256 data i hb hilt
      have hx1 := xor_pow_ne (data.getD i 0) k
      have hx2 := xor_pow_lt (data.getD i 0) k hdi hk
      have hck := checksum_completes data.sum
      refine ⟨FrameError.dataChecksum, ?_⟩
      rw [if_pos ?_]
      rw [List.sum_append]
      simp only [List.sum_cons, List.sum_nil]
      omega
    · -- data checksum byte
      have hie : i = data.length := by omega
      subst hie
      have hgd : (data ++ [bitnot8 (255 + data.sum), 0]).getD data.length 0 =
          bitnot8 (255 + data.sum) := by
        rw [List.getD_append_right _ _ _ _ (by omega)]
        simp
      have hst : (data ++ [bitnot8 (255 + data.sum), 0]).set data.length
          (bitnot8 (255 + data.sum) ^^^ 2 ^ k) =
          data ++ [bitnot8 (255 + data.sum) ^^^ 2 ^ k, 0] := by
        rw [List.set_append_right _ _ (by omega)]
        simp
      rw [hgd, hst]
      have htk : (data ++ [bitnot8 (255 + data.sum) ^^^ 2 ^ k, 0]).take (data.length + 1) =
          data ++ [bitnot8 (255 + data.sum) ^^^ 2 ^ k] := by
        rw [List.take_append_eq_append_take, List.take_of_length_le (by omega)]
        simp
      rw [htk]
      have hx1 := xor_pow_ne (bitnot8 (255 + data.sum)) k
      have hx2 := xor_pow_lt (bitnot8 (255 + data.sum)) k (bitnot8_lt _) hk
      have hdcs := bitnot8_lt (255 + data.sum)
      have hck := checksum_completes data.sum
      refine ⟨FrameError.dataChecksum, ?_⟩
      rw [if_pos ?_]
      rw [List.sum_append]
      simp only [List.sum_cons, List.sum_nil]
      omega

/-- C9 witness: flipping bit 0 of the first data byte of the encoded frame
for the payload D4 02 is rejected with the data checksum error. -/
theorem frame_flip_detected_witness :
    ∃ e, read_frame (flip_bit (frame_bytes [0xD4, 0x02]) (0 + 5) 0) = Except.error e :=
  frame_flip_detected [0xD4, 0x02] (0 + 5) 0 (by decide) (by decide)
    (by decide) (by decide) (by decide) (by decide)

end NFC
